import Mathlib

/-!
Verification development for the lyric-annotation and card-generation
pipeline of the music-learning web application.

The definitions below are shallow embeddings of the TypeScript sources:

* `Json`, `jsonParse`      — model of the JavaScript `JSON.parse` builtin used
                             by `extractJSON` (src/lib/ai/services.ts).
* `extractJSON`            — src/lib/ai/services.ts, `extractJSON` (lines 63-120).
* `parseLyrics`            — src/lib/ai/services.ts, `parseLyrics` /
                             `parseLyricsBatch` (lines 224-302), with the LLM
                             call plus JSON extraction of a chunk abstracted as
                             an oracle parameter.
* `generateCardsFromLine`  — src/lib/ai/services.ts, lines 132-168.
* `cardsGenerateRoute`     — src/app/api/cards/[id]/route.ts, POST
                             /api/cards/generate persistence path.
* `normalizePartOfSpeech`  — src/app/api/songs/import/route.ts, lines 152-164.
* `importFuriganaUpdate`   — src/app/api/songs/import/route.ts, lines 116-134.
* `updateCardStatus`, `getOrCreateProgress`
                           — src/services/cards.service.ts, lines 248-297.
-/

namespace Music

/-- The opening-brace character, written via its code point. -/
def lbrace : Char := Char.ofNat 123

/-- The closing-brace character, written via its code point. -/
def rbrace : Char := Char.ofNat 125

/-- A JSON value as produced by `JSON.parse`.

JavaScript numbers are IEEE doubles; this model represents exactly the
integral values (`num : Int`) and the number parser rejects non-integral
literals.  None of the verified properties exercise non-integral numbers. -/
inductive Json where
  | null
  | bool (b : Bool)
  | num (n : Int)
  | str (s : String)
  | arr (items : List Json)
  | obj (fields : List (String × Json))

/-- JSON whitespace, per RFC 8259 (what `JSON.parse` skips). -/
def jsonWs (c : Char) : Bool :=
  c = ' ' || c = '\t' || c = '\n' || c = '\r'

/-- Skip leading JSON whitespace. -/
def dropWs : List Char → List Char
  | c :: r => if jsonWs c then dropWs r else c :: r
  | [] => []

/-- ASCII decimal digit test. -/
def digit? (c : Char) : Bool := '0' ≤ c && c ≤ '9'

/-- Split off a maximal run of leading digits. -/
def readDigits : List Char → List Char × List Char
  | c :: r =>
    if digit? c then
      let p := readDigits r
      (c :: p.1, p.2)
    else ([], c :: r)
  | [] => ([], [])

/-- Numeric value of a digit run. -/
def digitsNat (ds : List Char) : Nat :=
  ds.foldl (fun a c => a * 10 + (c.toNat - 48)) 0

/-- Value of one hexadecimal digit, if any. -/
def hexVal (c : Char) : Option Nat :=
  if '0' ≤ c && c ≤ '9' then some (c.toNat - 48)
  else if 'a' ≤ c && c ≤ 'f' then some (c.toNat - 97 + 10)
  else if 'A' ≤ c && c ≤ 'F' then some (c.toNat - 65 + 10)
  else none

/-- Value of a four-hex-digit escape. -/
def hex4 (a b c d : Char) : Option Nat :=
  (hexVal a).bind fun va =>
  (hexVal b).bind fun vb =>
  (hexVal c).bind fun vc =>
  (hexVal d).map fun vd => ((va * 16 + vb) * 16 + vc) * 16 + vd

/-- Single-character JSON string escapes. -/
def escChar (e : Char) : Option Char :=
  if e = '"' then some ('"')
  else if e = '\\' then some ('\\')
  else if e = '/' then some ('/')
  else if e = 'b' then some (Char.ofNat 8)
  else if e = 'f' then some (Char.ofNat 12)
  else if e = 'n' then some ('\n')
  else if e = 'r' then some ('\r')
  else if e = 't' then some ('\t')
  else none

/-- Read the body of a JSON string after the opening quote; yields the decoded
characters and the input remaining after the closing quote. -/
def readStringChars : List Char → Option (List Char × List Char)
  | '\\' :: 'u' :: a :: b :: c :: d :: r =>
    (hex4 a b c d).bind fun n =>
      (readStringChars r).map fun p => (Char.ofNat n :: p.1, p.2)
  | '\\' :: e :: r =>
    (escChar e).bind fun ch =>
      (readStringChars r).map fun p => (ch :: p.1, p.2)
  | c :: r =>
    if c = '"' then some ([], r)
    else (readStringChars r).map fun p => (c :: p.1, p.2)
  | [] => none

/-- Power of ten. -/
def tenPow (n : Nat) : Nat := 10 ^ n

/-- Parse a JSON number literal.  Faithful to the grammar accepted by
`JSON.parse` (sign, integer part, optional fraction, optional exponent),
except that a literal whose exact value is not an integer is rejected
rather than rounded to a double (see `Json`). -/
def parseNumber (cs : List Char) : Option (Json × List Char) :=
  let signSplit : Bool × List Char :=
    match cs with
    | c :: r => if c = '-' then (true, r) else (false, cs)
    | [] => (false, [])
  let neg := signSplit.1
  let intPart := readDigits signSplit.2
  if intPart.1.isEmpty then none
  else
    let fracSplit : Option (List Char × List Char) :=
      match intPart.2 with
      | c :: r =>
        if c = '.' then
          let p := readDigits r
          if p.1.isEmpty then none else some p
        else some ([], intPart.2)
      | [] => some ([], [])
    match fracSplit with
    | none => none
    | some (fds, cs3) =>
      let expSplit : Option (Int × List Char) :=
        match cs3 with
        | c :: r =>
          if c = 'e' ∨ c = 'E' then
            let se : Int × List Char :=
              match r with
              | d :: r' =>
                if d = '+' then (1, r')
                else if d = '-' then (-1, r')
                else (1, r)
              | [] => (1, [])
            let eds := readDigits se.2
            if eds.1.isEmpty then none
            else some (se.1 * (digitsNat eds.1 : Int), eds.2)
          else some (0, cs3)
        | [] => some (0, [])
      match expSplit with
      | none => none
      | some (e, cs4) =>
        let mant : Int :=
          (if neg then (-1 : Int) else 1) * (digitsNat (intPart.1 ++ fds) : Int)
        let e10 : Int := e - (fds.length : Int)
        if 0 ≤ e10 then
          some (Json.num (mant * (tenPow e10.toNat : Int)), cs4)
        else
          let d : Int := (tenPow (-e10).toNat : Int)
          if mant % d = 0 then some (Json.num (mant / d), cs4) else none

mutual

/-- Parse one JSON value (fuel-indexed so the mutual recursion is total). -/
def parseVal : Nat → List Char → Option (Json × List Char)
  | 0, _ => none
  | fuel + 1, cs =>
    match dropWs cs with
    | [] => none
    | c :: rest =>
      if c = '"' then
        (readStringChars rest).map fun p => (Json.str (String.mk p.1), p.2)
      else if c = lbrace then
        match dropWs rest with
        | d :: rest' =>
          if d = rbrace then some (Json.obj [], rest')
          else (parseFields fuel (d :: rest')).map fun p => (Json.obj p.1, p.2)
        | [] => none
      else if c = '[' then
        match dropWs rest with
        | d :: rest' =>
          if d = ']' then some (Json.arr [], rest')
          else (parseItems fuel (d :: rest')).map fun p => (Json.arr p.1, p.2)
        | [] => none
      else if c = 'n' then
        match rest with
        | 'u' :: 'l' :: 'l' :: r => some (Json.null, r)
        | _ => none
      else if c = 't' then
        match rest with
        | 'r' :: 'u' :: 'e' :: r => some (Json.bool true, r)
        | _ => none
      else if c = 'f' then
        match rest with
        | 'a' :: 'l' :: 's' :: 'e' :: r => some (Json.bool false, r)
        | _ => none
      else if c = '-' ∨ digit? c then parseNumber (c :: rest)
      else none

/-- Parse one-or-more comma-separated array items up to the closing bracket. -/
def parseItems : Nat → List Char → Option (List Json × List Char)
  | 0, _ => none
  | fuel + 1, cs =>
    match parseVal fuel cs with
    | none => none
    | some (v, r) =>
      match dropWs r with
      | ',' :: r' => (parseItems fuel r').map fun p => (v :: p.1, p.2)
      | ']' :: r' => some ([v], r')
      | _ => none

/-- Parse one-or-more comma-separated object members up to the closing brace. -/
def parseFields : Nat → List Char → Option (List (String × Json) × List Char)
  | 0, _ => none
  | fuel + 1, cs =>
    match dropWs cs with
    | c :: r =>
      if c = '"' then
        match readStringChars r with
        | none => none
        | some (kcs, r1) =>
          match dropWs r1 with
          | ':' :: r2 =>
            match parseVal fuel r2 with
            | none => none
            | some (v, r3) =>
              match dropWs r3 with
              | ',' :: r4 =>
                (parseFields fuel r4).map fun p =>
                  ((String.mk kcs, v) :: p.1, p.2)
              | d :: r4 =>
                if d = rbrace then some ([(String.mk kcs, v)], r4) else none
              | [] => none
          | _ => none
      else none
    | [] => none

end

/-- Model of the JavaScript `JSON.parse` builtin: parse one value surrounded
by optional whitespace, rejecting trailing garbage; `none` models a thrown
`SyntaxError`. -/
def jsonParse (s : String) : Option Json :=
  let cs := s.data
  match parseVal (2 * cs.length + 4) cs with
  | some (j, rest) => if (dropWs rest).isEmpty then some j else none
  | none => none

/-- The tail of the text starting at the first opening brace
(`text.indexOf` of the brace in the source); `none` when there is none. -/
def dropUntilBrace : List Char → Option (List Char)
  | [] => none
  | c :: r => if c = lbrace then some (c :: r) else dropUntilBrace r

/-- The brace-matching scan of `extractJSON` (src/lib/ai/services.ts lines
77-105): walk the characters with a brace-depth counter and a string-literal
state machine, accumulating the consumed characters (reversed) in `acc`;
return the slice from the first brace through the matching closing brace, or
`none` when the braces never balance (the "Incomplete JSON" path). -/
def scanBalanced : List Char → Nat → Bool → Bool → List Char → Option (List Char)
  | [], _, _, _, _ => none
  | c :: rest, braceCount, inString, escapeNext, acc =>
    if escapeNext then
      scanBalanced rest braceCount inString false (c :: acc)
    else if c = '\\' ∧ inString then
      scanBalanced rest braceCount inString true (c :: acc)
    else if c = '"' then
      scanBalanced rest braceCount (!inString) false (c :: acc)
    else if inString then
      scanBalanced rest braceCount inString false (c :: acc)
    else if c = lbrace then
      scanBalanced rest (braceCount + 1) inString false (c :: acc)
    else if c = rbrace then
      if braceCount = 1 then some (c :: acc).reverse
      else scanBalanced rest (braceCount - 1) inString false (c :: acc)
    else
      scanBalanced rest braceCount inString false (c :: acc)

/-- Model of `extractJSON` (src/lib/ai/services.ts lines 63-120): first try
`JSON.parse` on the whole text; on failure locate the first opening brace
(`none` when absent), scan to the matching closing brace, and parse that
slice (`none` when the slice fails to parse — no re-scan from a later
brace). -/
def extractJSON (text : String) : Option Json :=
  match jsonParse text with
  | some j => some j
  | none =>
    match dropUntilBrace text.data with
    | none => none
    | some fromBrace =>
      match scanBalanced fromBrace 0 false false [] with
      | none => none
      | some sub => jsonParse (String.mk sub)

/-- One record of the Batch Annotator's output
(`ParsedLine` in src/lib/ai/services.ts). -/
structure ParsedLine where
  lineNumber : Nat
  contentJa : String
  contentZh : String
  furigana : String
  tokens : String
deriving DecidableEq, Repr

/-- The batch size of the lyrics parser
(`AI_CONFIG.lyricsParser.batchSize` in src/lib/ai/config.ts). -/
def batchSize : Nat := 8

/-- The re-numbering step of `parseLyricsBatch` (src/lib/ai/services.ts lines
294-299): item `i` of the extracted `lines` array keeps its fields but gets
`lineNumber := startIndex + i + 1`. -/
def renumberFrom (startIndex : Nat) : List ParsedLine → List ParsedLine
  | [] => []
  | l :: ls => { l with lineNumber := startIndex + 1 } :: renumberFrom (startIndex + 1) ls

/-- The per-chunk fallback loop of `parseLyrics` (src/lib/ai/services.ts lines
254-263): line `j` of a failed batch becomes a placeholder record keeping the
original text, with empty translation, empty furigana and empty tokens. -/
def placeholders (batchStartIndex : Nat) : List String → List ParsedLine
  | [] => []
  | s :: ss =>
    { lineNumber := batchStartIndex + 1
      contentJa := s
      contentZh := ""
      furigana := "[]"
      tokens := "[]" } :: placeholders (batchStartIndex + 1) ss

/-- A chunk oracle abstracts one LLM round trip of the Batch Annotator:
`oracle batch = some res` models a chunk whose completion call succeeded and
whose JSON extraction produced a `lines` array `res`; `oracle batch = none`
models a chunk that raised an exception or whose extraction failed. -/
abbrev ChunkOracle := List String → Option (List ParsedLine)

/-- Model of `parseLyricsBatch` (src/lib/ai/services.ts lines 272-302): on a
successful chunk, re-number the extracted lines with the chunk's starting
offset; any failure propagates as `none` (the thrown error). -/
def parseLyricsBatch (oracle : ChunkOracle) (batch : List String)
    (startIndex : Nat) : Option (List ParsedLine) :=
  (oracle batch).map (renumberFrom startIndex)

/-- The chunk loop of `parseLyrics` (src/lib/ai/services.ts lines 235-266):
process `batchSize`-line chunks in order, substituting placeholder records
for a failed chunk; `start` is the running `batchStartIndex`. -/
def parseLyricsGo (oracle : ChunkOracle) : List String → Nat → List ParsedLine
  | [], _ => []
  | l :: ls, start =>
    let batch := (l :: ls).take batchSize
    let chunkRes :=
      match parseLyricsBatch oracle batch start with
      | some rs => rs
      | none => placeholders start batch
    chunkRes ++ parseLyricsGo oracle ((l :: ls).drop batchSize) (start + batchSize)
termination_by lyrics _ => lyrics.length
decreasing_by simp [List.length_drop, batchSize]; omega

/-- Model of `parseLyrics` (src/lib/ai/services.ts lines 224-267), non-mock
path, with the LLM round trip abstracted as a `ChunkOracle`. -/
def parseLyrics (oracle : ChunkOracle) (lyrics : List String) : List ParsedLine :=
  parseLyricsGo oracle lyrics 0

/-- A chunk oracle is well-formed when every successful chunk yields exactly
one extracted line per input line — the shape the lyrics-parser prompt
requests from the model.  Failing chunks are unconstrained. -/
def OracleWF (oracle : ChunkOracle) : Prop :=
  ∀ batch res, oracle batch = some res → res.length = batch.length

/-- JavaScript truthiness on JSON values: `null`, `false`, `0` and the empty
string are falsy; objects and arrays (even empty ones) are truthy. -/
def jsFalsy : Json → Bool
  | Json.null => true
  | Json.bool b => !b
  | Json.num n => n = 0
  | Json.str s => s = ""
  | Json.arr _ => false
  | Json.obj _ => false

/-- Last binding for a key among an object's members (later duplicate keys
win in `JSON.parse`, so lookup prefers the rightmost occurrence). -/
def lookupLast (fields : List (String × Json)) (key : String) : Option Json :=
  match fields with
  | [] => none
  | (k, v) :: rest =>
    match lookupLast rest key with
    | some r => some r
    | none => if k = key then some v else none

/-- JavaScript property access `value[key]`: a present member's value, or
`none` for `undefined` (missing member, or access on a non-object). -/
def jsGetField : Json → String → Option Json
  | Json.obj fields, key => lookupLast fields key
  | _, _ => none

/-- The expression `parsed.cards || []` in `generateCardsFromLine`
(src/lib/ai/services.ts line 163): the `cards` member when truthy, otherwise
an empty array. -/
def cardsOrEmptyJs (parsed : Json) : Json :=
  match jsGetField parsed ("cards") with
  | none => Json.arr []
  | some v => if jsFalsy v then Json.arr [] else v

/-- Model of `generateCardsFromLine` (src/lib/ai/services.ts lines 132-168),
non-mock path, taking the LLM's response text as input.  The guard
`if (!parsed) throw` is a JS-falsy test, so it throws both when extraction
returned `null` and when the extracted JSON root is itself falsy (`0`,
`null`, `false`, the empty string); the `catch` rethrows the generic
user-facing error, so the caller sees `Except.error`.  There is no
placeholder fallback: the only success value is `parsed.cards || []`. -/
def generateCardsFromLine (responseText : String) : Except String Json :=
  match extractJSON responseText with
  | none => Except.error ("词卡生成失败，请稍后重试")
  | some parsed =>
    if jsFalsy parsed then Except.error ("词卡生成失败，请稍后重试")
    else Except.ok (cardsOrEmptyJs parsed)

/-- The persistence path of POST /api/cards/generate
(src/app/api/cards/[id]/route.ts lines 180-207): call the generator, take
`generatedCards.slice(0, count)`, and persist those records in order
(`Promise.all` over `cardsToCreate.map(createCard)` keeps order).  A
generator error, or `.slice` on a non-array value, surfaces as an error
response (`none`). -/
def cardsGenerateRoute (responseText : String) (count : Nat) : Option (List Json) :=
  match generateCardsFromLine responseText with
  | Except.error _ => none
  | Except.ok v =>
    match v with
    | Json.arr cs => some (cs.take count)
    | _ => none

/-- The closed part-of-speech set (`validPartOfSpeech` in
src/app/api/songs/import/route.ts line 148 and the `part_of_speech`
database enum). -/
def validPartOfSpeech : List String :=
  ["noun", "verb", "adjective", "adverb", "particle", "other"]

/-- ASCII lowering of one character (the A-Z range of `toLowerCase()`). -/
def lowerChar (c : Char) : Char :=
  if 'A' ≤ c && c ≤ 'Z' then Char.ofNat (c.toNat + 32) else c

/-- Model of `toLowerCase()` for the ASCII part-of-speech tags. -/
def toLowerAscii (s : String) : String := String.mk (s.data.map lowerChar)

/-- Model of `normalizePartOfSpeech` (src/app/api/songs/import/route.ts lines
152-164).  `none` models an `undefined` input; the JS falsy test `!pos` also
catches the empty string.  `toLowerAscii` models `toLowerCase()` (the tags
involved are ASCII). -/
def normalizePartOfSpeech (pos : Option String) : String :=
  match pos with
  | none => "other"
  | some p =>
    if p = "" then "other"
    else
      let lowered := toLowerAscii p
      if lowered ∈ validPartOfSpeech then lowered
      else if lowered = "pronoun" ∨ lowered = "pron" then "other"
      else if lowered = "conjunction" ∨ lowered = "conj" then "other"
      else if lowered = "preposition" ∨ lowered = "prep" then "particle"
      else if lowered = "interjection" ∨ lowered = "interj" then "other"
      else "other"

/-- The `partOfSpeech` value stored by `createCard`
(src/services/cards.service.ts line 84): `input.partOfSpeech || 'other'`. -/
def createCardPos (posVal : Option Json) : Json :=
  match posVal with
  | none => Json.str ("other")
  | some v => if jsFalsy v then Json.str ("other") else v

/-- The part-of-speech value persisted for one card by POST
/api/cards/generate (src/app/api/cards/[id]/route.ts line 200): the
generator's `card.partOfSpeech` is passed to `createCard` verbatim, with no
call to any normalization. -/
def persistedPosGenerate (card : Json) : Json :=
  createCardPos (jsGetField card ("partOfSpeech"))

/-- The furigana value written into a Line by the import route
(src/app/api/songs/import/route.ts lines 116-134): when the annotator's
`furigana` string is truthy and not the literal two-character empty-array
text, `JSON.parse` it; a parse failure is swallowed by the `catch`, leaving
the update value `undefined` (`none`).  No bounds validation is applied. -/
def importFuriganaUpdate (furigana : String) : Option Json :=
  if furigana ≠ "" ∧ furigana ≠ "[]" then jsonParse furigana else none

/-- Character range of a furigana span object: its `start` and `end`
members, when both are numbers. -/
def spanRange (item : Json) : Option (Int × Int) :=
  match jsGetField item ("start"), jsGetField item ("end") with
  | some (Json.num s), some (Json.num e) => some (s, e)
  | _, _ => none

/-- Learning status of a card (`CardStatus` in src/services/cards.service.ts,
`card_status` enum in the schema). -/
inductive CardStatus where
  | new
  | learning
  | mastered
deriving DecidableEq, Repr

/-- A `card_progress` row, restricted to the fields the learning-state
claims concern (timestamps other than `last_reviewed_at` are elided). -/
structure CardProgressRow where
  status : CardStatus
  reviewCount : Nat
  lastReviewedAt : Option Nat
deriving DecidableEq, Repr

/-- Model of `getOrCreateProgress` (src/services/cards.service.ts lines
248-271): return the existing row for the (user, card) pair, or insert one
with status `new` and review count 0 (`last_reviewed_at` unset). -/
def getOrCreateProgress : Option CardProgressRow → CardProgressRow
  | some existing => existing
  | none => { status := CardStatus.new, reviewCount := 0, lastReviewedAt := none }

/-- Model of `updateCardStatus` (src/services/cards.service.ts lines
276-297): ensure the row exists, then set the new status unconditionally,
increment the stored review count by one, and record the review time. -/
def updateCardStatus (stored : Option CardProgressRow) (status : CardStatus)
    (now : Nat) : CardProgressRow :=
  let ensured := getOrCreateProgress stored
  { ensured with
      status := status
      reviewCount := ensured.reviewCount + 1
      lastReviewedAt := some now }

/-! ### Helper lemmas for the Batch Annotator -/

theorem length_renumberFrom (ls : List ParsedLine) :
    ∀ s, (renumberFrom s ls).length = ls.length := by
  induction ls with
  | nil => intro s; rfl
  | cons l ls ih => intro s; simp [renumberFrom, ih]

theorem map_lineNumber_renumberFrom (ls : List ParsedLine) :
    ∀ s, (renumberFrom s ls).map (fun l => l.lineNumber)
      = List.range' (s + 1) ls.length := by
  induction ls with
  | nil => intro s; rfl
  | cons l ls ih =>
    intro s
    simp [renumberFrom, ih, List.range'_succ]

theorem length_placeholders (ss : List String) :
    ∀ s, (placeholders s ss).length = ss.length := by
  induction ss with
  | nil => intro s; rfl
  | cons x ss ih => intro s; simp [placeholders, ih]

theorem map_lineNumber_placeholders (ss : List String) :
    ∀ s, (placeholders s ss).map (fun l => l.lineNumber)
      = List.range' (s + 1) ss.length := by
  induction ss with
  | nil => intro s; rfl
  | cons x ss ih =>
    intro s
    simp [placeholders, ih, List.range'_succ]

theorem getElem?_placeholders (ss : List String) :
    ∀ start j s, ss[j]? = some s →
      (placeholders start ss)[j]? =
        some (ParsedLine.mk (start + j + 1) s ("") ("[]") ("[]")) := by
  induction ss with
  | nil => intro start j s h; simp at h
  | cons x ss ih =>
    intro start j s h
    cases j with
    | zero =>
      simp at h
      simp [placeholders, h]
    | succ j =>
      simp at h
      have hx := ih (start + 1) j s h
      simp only [placeholders, List.getElem?_cons_succ]
      rw [hx]
      congr 2
      omega

theorem parseLyricsGo_nil (oracle : ChunkOracle) (start : Nat) :
    parseLyricsGo oracle [] start = [] := by
  rw [parseLyricsGo]

theorem parseLyricsGo_cons (oracle : ChunkOracle) (l : String) (ls : List String)
    (start : Nat) :
    parseLyricsGo oracle (l :: ls) start =
      (match parseLyricsBatch oracle ((l :: ls).take batchSize) start with
        | some rs => rs
        | none => placeholders start ((l :: ls).take batchSize)) ++
      parseLyricsGo oracle ((l :: ls).drop batchSize) (start + batchSize) := by
  rw [parseLyricsGo]

/-- Under a well-formed oracle, every chunk contributes exactly one output
record per input line, whatever the chunk's outcome. -/
theorem chunkRes_length (oracle : ChunkOracle) (hwf : OracleWF oracle)
    (batch : List String) (start : Nat) :
    (match parseLyricsBatch oracle batch start with
      | some rs => rs
      | none => placeholders start batch).length = batch.length := by
  unfold parseLyricsBatch
  cases hres : oracle batch with
  | none => simp [length_placeholders]
  | some res => simp [length_renumberFrom, hwf batch res hres]

/-- Under a well-formed oracle, a chunk's contribution carries the line
numbers of its lines' global positions, whatever the chunk's outcome. -/
theorem chunkRes_map (oracle : ChunkOracle) (hwf : OracleWF oracle)
    (batch : List String) (start : Nat) :
    ((match parseLyricsBatch oracle batch start with
      | some rs => rs
      | none => placeholders start batch : List ParsedLine)).map
        (fun r => r.lineNumber)
      = List.range' (start + 1) batch.length := by
  unfold parseLyricsBatch
  cases hres : oracle batch with
  | none => simp [map_lineNumber_placeholders]
  | some res => simp [map_lineNumber_renumberFrom, hwf batch res hres]

theorem parseLyricsGo_spec (oracle : ChunkOracle) (hwf : OracleWF oracle) :
    ∀ (n : Nat) (lyrics : List String) (start : Nat), lyrics.length ≤ n →
      (parseLyricsGo oracle lyrics start).length = lyrics.length ∧
      (parseLyricsGo oracle lyrics start).map (fun r => r.lineNumber)
        = List.range' (start + 1) lyrics.length := by
  intro n
  induction n with
  | zero =>
    intro lyrics start h
    match lyrics with
    | [] => rw [parseLyricsGo_nil]; exact ⟨rfl, rfl⟩
    | l :: ls => simp at h
  | succ n ih =>
    intro lyrics start h
    match lyrics with
    | [] => rw [parseLyricsGo_nil]; exact ⟨rfl, rfl⟩
    | l :: ls =>
      have hdrop : ((l :: ls).drop batchSize).length ≤ n := by
        simp only [List.length_drop, List.length_cons, batchSize]
        simp only [List.length_cons] at h
        omega
      obtain ⟨ihlen, ihmap⟩ := ih ((l :: ls).drop batchSize) (start + batchSize) hdrop
      rw [parseLyricsGo_cons]
      have hchunk := chunkRes_length oracle hwf ((l :: ls).take batchSize) start
      constructor
      · simp only [List.length_append, hchunk, ihlen, List.length_take,
          List.length_drop]
        omega
      · have hmapchunk := chunkRes_map oracle hwf ((l :: ls).take batchSize) start
        rw [List.map_append, hmapchunk, ihmap]
        rcases Nat.le_total ((l :: ls).length) batchSize with h8 | h8
        · have htake : ((l :: ls).take batchSize).length = (l :: ls).length := by
            simp only [List.length_take]
            omega
          have hd : ((l :: ls).drop batchSize).length = 0 := by
            simp only [List.length_drop]
            omega
          rw [htake, hd]
          simp
        · have htake : ((l :: ls).take batchSize).length = batchSize := by
            simp only [List.length_take]
            omega
          have hd : ((l :: ls).drop batchSize).length = (l :: ls).length - batchSize := by
            simp [List.length_drop]
          rw [htake, hd]
          have hst : start + batchSize + 1 = (start + 1) + batchSize := by omega
          rw [hst, List.range'_append_1]
          congr 1
          omega

/-- C1: for every input list of N lyric lines and every chunk oracle that
returns one record per line on each successful chunk (failures arbitrary),
the Batch Annotator returns exactly N records whose line numbers are the
strict sequence 1..N in input order. -/
theorem C1_batch_annotator_shape (oracle : ChunkOracle) (lyrics : List String)
    (hwf : OracleWF oracle) :
    (parseLyrics oracle lyrics).length = lyrics.length ∧
    (parseLyrics oracle lyrics).map (fun l => l.lineNumber)
      = List.range' 1 lyrics.length := by
  have h := parseLyricsGo_spec oracle hwf lyrics.length lyrics 0 (Nat.le_refl _)
  simpa [parseLyrics] using h

/-- Witness for C1: three lines, every chunk failing (which satisfies the
oracle well-formedness hypothesis vacuously), give three records numbered
1, 2, 3. -/
theorem C1_batch_annotator_shape_witness :
    (parseLyrics (fun _ => none) ["a", "b", "c"]).length = 3 ∧
    (parseLyrics (fun _ => none) ["a", "b", "c"]).map (fun l => l.lineNumber)
      = [1, 2, 3] := by
  have h := C1_batch_annotator_shape (fun _ => none) ["a", "b", "c"]
    (fun _ _ hx => by cases hx)
  simpa using h

theorem parseLyricsGo_failed_chunk (oracle : ChunkOracle) (hwf : OracleWF oracle) :
    ∀ (c : Nat) (lyrics : List String) (start j : Nat) (s : String),
      j < batchSize →
      oracle ((lyrics.drop (batchSize * c)).take batchSize) = none →
      lyrics[batchSize * c + j]? = some s →
      (parseLyricsGo oracle lyrics start)[batchSize * c + j]? =
        some (ParsedLine.mk (start + (batchSize * c + j) + 1) s ("") ("[]") ("[]")) := by
  intro c
  induction c with
  | zero =>
    intro lyrics start j s hj hfail hget
    match lyrics with
    | [] => simp at hget
    | l :: ls =>
      rw [parseLyricsGo_cons]
      simp only [Nat.mul_zero, List.drop_zero] at hfail
      simp only [Nat.mul_zero, Nat.zero_add] at hget ⊢
      have hb : parseLyricsBatch oracle ((l :: ls).take batchSize) start = none := by
        simp [parseLyricsBatch, hfail]
      have hchunk_eq :
          ((match parseLyricsBatch oracle ((l :: ls).take batchSize) start with
            | some rs => rs
            | none => placeholders start ((l :: ls).take batchSize)
            : List ParsedLine))
          = placeholders start ((l :: ls).take batchSize) := by
        rw [hb]
      rw [hchunk_eq]
      have hjlen : j < (l :: ls).length := by
        obtain ⟨hlt, _⟩ := List.getElem?_eq_some_iff.mp hget
        exact hlt
      have hjb : j < (placeholders start ((l :: ls).take batchSize)).length := by
        rw [length_placeholders, List.length_take]
        omega
      rw [List.getElem?_append_left hjb]
      apply getElem?_placeholders
      rw [List.getElem?_take_of_lt hj]
      exact hget
  | succ c ih =>
    intro lyrics start j s hj hfail hget
    match lyrics with
    | [] => simp at hget
    | l :: ls =>
      rw [parseLyricsGo_cons]
      have hlen : batchSize * (c + 1) + j < (l :: ls).length := by
        obtain ⟨hlt, _⟩ := List.getElem?_eq_some_iff.mp hget
        exact hlt
      have h8 : batchSize ≤ (l :: ls).length := by
        simp only [batchSize] at hlen ⊢
        omega
      have hcl :
          ((match parseLyricsBatch oracle ((l :: ls).take batchSize) start with
            | some rs => rs
            | none => placeholders start ((l :: ls).take batchSize)
            : List ParsedLine)).length
          = batchSize := by
        rw [chunkRes_length oracle hwf, List.length_take]
        omega
      have hle : ((match parseLyricsBatch oracle ((l :: ls).take batchSize) start with
            | some rs => rs
            | none => placeholders start ((l :: ls).take batchSize)
            : List ParsedLine)).length ≤ batchSize * (c + 1) + j := by
        rw [hcl]
        simp only [batchSize]
        omega
      rw [List.getElem?_append_right hle, hcl]
      have hidx : batchSize * (c + 1) + j - batchSize = batchSize * c + j := by
        simp only [batchSize]
        omega
      rw [hidx]
      have hfail' :
          oracle ((((l :: ls).drop batchSize).drop (batchSize * c)).take batchSize)
            = none := by
        rw [List.drop_drop]
        have hamt : batchSize + batchSize * c = batchSize * (c + 1) := by
          simp only [batchSize]
          omega
        rw [hamt]
        exact hfail
      have hget' : ((l :: ls).drop batchSize)[batchSize * c + j]? = some s := by
        rw [List.getElem?_drop]
        have hamt : batchSize + (batchSize * c + j) = batchSize * (c + 1) + j := by
          simp only [batchSize]
          omega
        rw [hamt]
        exact hget
      rw [ih ((l :: ls).drop batchSize) (start + batchSize) j s hj hfail' hget']
      congr 2
      simp only [batchSize]
      omega

/-- C2: when the chunk containing global position `batchSize * c + j`
(0-based) fails — its LLM call raised or its JSON extraction failed — the
Batch Annotator still emits, at exactly that position, one placeholder record
keeping the original input line as `contentJa`, with empty translation,
empty furigana (`[]`), empty tokens (`[]`), and the correct 1-based global
line number; the surrounding successful chunks are only assumed to return
one record per line.  Instantiating the oracle with `fun _ => none` covers
the all-chunks-fail scenario. -/
theorem C2_failed_chunk_placeholder (oracle : ChunkOracle) (hwf : OracleWF oracle)
    (lyrics : List String) (c j : Nat) (s : String)
    (hj : j < batchSize)
    (hfail : oracle ((lyrics.drop (batchSize * c)).take batchSize) = none)
    (hget : lyrics[batchSize * c + j]? = some s) :
    (parseLyrics oracle lyrics)[batchSize * c + j]? =
      some (ParsedLine.mk (batchSize * c + j + 1) s ("") ("[]") ("[]")) := by
  have h := parseLyricsGo_failed_chunk oracle hwf c lyrics 0 j s hj hfail hget
  simpa [parseLyrics] using h

/-- Witness for C2: with every chunk failing on a two-line input, position 1
holds the placeholder for the second line, numbered 2. -/
theorem C2_failed_chunk_placeholder_witness :
    (parseLyrics (fun _ => none) ["a", "b"])[1]? =
      some (ParsedLine.mk 2 ("b") ("") ("[]") ("[]")) := by
  have h := C2_failed_chunk_placeholder (fun _ => none)
    (fun _ _ hx => by cases hx) ["a", "b"] 0 1 ("b")
    (by simp [batchSize]) rfl rfl
  simpa using h

/-! ### JSON extraction -/

/-- C3: `extractJSON` first attempts a whole-string parse, then scans from
the first opening brace with a depth counter and a string state machine.
Concretely: prose-wrapped nested object extracted; an object with an escaped
quote inside a string value parsed both bare (whole-string path) and wrapped
in prose (scanner path, which must not end the string at the escaped quote);
input with no opening brace fails with `none`. -/
theorem C3_extract_json_cases :
    extractJSON ("prefix text \x7b\"a\":1,\"b\":\x7b\"c\":2\x7d\x7d trailing") =
      some (Json.obj [("a", Json.num 1), ("b", Json.obj [("c", Json.num 2)])]) ∧
    extractJSON ("\x7b\"a\":\"he said \\\"hi\\\"\"\x7d") =
      some (Json.obj [("a", Json.str ("he said \"hi\""))]) ∧
    extractJSON ("note: \x7b\"a\":\"he said \\\"hi\\\"\"\x7d done") =
      some (Json.obj [("a", Json.str ("he said \"hi\""))]) ∧
    extractJSON ("no opening brace here") = none := by
  refine ⟨?_, ?_, ?_, ?_⟩ <;> rfl

/-- C9: `extractJSON` commits to the first opening brace: on an input whose
first balanced-brace slice is not valid JSON it returns `none`, even though a
valid JSON object (which `extractJSON` accepts on its own) appears later in
the same text. -/
theorem C9_extract_json_commits_to_first_brace :
    extractJSON ("junk \x7b oops \x7d \x7b\"a\":1\x7d") = none ∧
    extractJSON ("\x7b\"a\":1\x7d") = some (Json.obj [("a", Json.num 1)]) := by
  exact ⟨rfl, rfl⟩

/-! ### Single-line card generation -/

/-- C5: in the non-mock path of `generateCardsFromLine`, a response from
which no JSON can be extracted is a hard failure: the caller receives the
thrown error, not a placeholder or partial result. -/
theorem C5_card_generation_hard_failure (responseText : String)
    (hx : extractJSON responseText = none) :
    generateCardsFromLine responseText =
      Except.error ("词卡生成失败，请稍后重试") := by
  unfold generateCardsFromLine
  rw [hx]

/-- Witness for C5: a brace-free response fails extraction and the generator
surfaces the error. -/
theorem C5_card_generation_hard_failure_witness :
    generateCardsFromLine ("no json in this reply") =
      Except.error ("词卡生成失败，请稍后重试") :=
  C5_card_generation_hard_failure ("no json in this reply") rfl

/-- A JSON value with a retrievable member is an object, and objects are
always truthy in JavaScript. -/
theorem jsFalsy_eq_false_of_getField (j : Json) (key : String) (v : Json)
    (h : jsGetField j key = some v) : jsFalsy j = false := by
  cases j <;> simp [jsGetField, jsFalsy] at h ⊢

/-- C10: when extraction succeeds with a parsed object (objects are truthy,
so the `if (!parsed) throw` guard passes) that has no `cards` member,
`generateCardsFromLine` returns an empty array as a success value
(`parsed.cards || []`), so zero cards are persisted without any error. -/
theorem C10_missing_cards_silent_empty (responseText : String)
    (fields : List (String × Json))
    (hx : extractJSON responseText = some (Json.obj fields))
    (hc : jsGetField (Json.obj fields) ("cards") = none) :
    generateCardsFromLine responseText = Except.ok (Json.arr []) := by
  simp [generateCardsFromLine, hx, jsFalsy, cardsOrEmptyJs, hc]

/-- Witness for C10: a response whose object has only a `lines` member
yields a successful empty card list. -/
theorem C10_missing_cards_silent_empty_witness :
    generateCardsFromLine ("\x7b\"lines\":[]\x7d") = Except.ok (Json.arr []) :=
  C10_missing_cards_silent_empty ("\x7b\"lines\":[]\x7d")
    [("lines", Json.arr [])] rfl rfl

/-- C7: when the extracted response holds five candidate cards and the
requested count is 2 (within the route's 1..5 bound), the
POST /api/cards/generate path persists exactly the first two candidates, in
the order the generator returned them. -/
theorem C7_truncate_to_requested_count (responseText : String) (parsed : Json)
    (cs : List Json)
    (hx : extractJSON responseText = some parsed)
    (hc : jsGetField parsed ("cards") = some (Json.arr cs))
    (h5 : cs.length = 5) :
    cardsGenerateRoute responseText 2 = some (cs.take 2) ∧
    (cs.take 2).length = 2 ∧
    cs.take 2 = [cs.get ⟨0, by omega⟩, cs.get ⟨1, by omega⟩] := by
  have hgen : generateCardsFromLine responseText = Except.ok (Json.arr cs) := by
    have htruthy := jsFalsy_eq_false_of_getField parsed ("cards") (Json.arr cs) hc
    have hco : cardsOrEmptyJs parsed = Json.arr cs := by
      simp [cardsOrEmptyJs, hc, jsFalsy]
    simp [generateCardsFromLine, hx, htruthy, hco]
  refine ⟨?_, ?_, ?_⟩
  · unfold cardsGenerateRoute
    rw [hgen]
  · simp [List.length_take]
    omega
  · match cs, h5 with
    | a :: b :: rest, _ => rfl

/-- Witness for C7: a five-card response with requested count 2 persists the
first two cards in order. -/
theorem C7_truncate_to_requested_count_witness :
    cardsGenerateRoute ("\x7b\"cards\":[1,2,3,4,5]\x7d") 2 =
      some [Json.num 1, Json.num 2] := by
  have h := C7_truncate_to_requested_count ("\x7b\"cards\":[1,2,3,4,5]\x7d")
    (Json.obj [("cards",
      Json.arr [Json.num 1, Json.num 2, Json.num 3, Json.num 4, Json.num 5])])
    [Json.num 1, Json.num 2, Json.num 3, Json.num 4, Json.num 5]
    rfl rfl rfl
  exact h.1

/-! ### Learning-state tracking -/

/-- C8: starting from a `new` row with review count 0, marking `mastered`
then `learning` ends in status `learning` with review count 2; in general
any target status is accepted from any state, each update increments the
review count by exactly one and stamps the review time, and a missing row is
created as `new` with count 0. -/
theorem C8_card_status_updates :
    (∀ t1 t2 : Nat,
      updateCardStatus
        (some (updateCardStatus (some (CardProgressRow.mk CardStatus.new 0 none))
          CardStatus.mastered t1))
        CardStatus.learning t2
        = CardProgressRow.mk CardStatus.learning 2 (some t2)) ∧
    (∀ (stored : Option CardProgressRow) (status : CardStatus) (now : Nat),
      (updateCardStatus stored status now).status = status ∧
      (updateCardStatus stored status now).reviewCount
        = (getOrCreateProgress stored).reviewCount + 1 ∧
      (updateCardStatus stored status now).lastReviewedAt = some now) ∧
    getOrCreateProgress none = CardProgressRow.mk CardStatus.new 0 none ∧
    (∀ r, getOrCreateProgress (some r) = r) := by
  refine ⟨fun t1 t2 => rfl, fun stored status now => ⟨rfl, rfl, rfl⟩, rfl,
    fun r => rfl⟩

/-! ### Part-of-speech normalization -/

/-- C6 counterexample: the claim says part-of-speech values written into Card
entities map `pronoun` to `other`, but the POST /api/cards/generate path
passes the generator's value to `createCard` verbatim: a card whose
`partOfSpeech` is `pronoun` is persisted with the value `pronoun`, which is
not `other` and lies outside the closed six-value set. -/
theorem C6_pos_not_normalized_on_generate_route :
    persistedPosGenerate (Json.obj [("partOfSpeech", Json.str ("pronoun"))])
      = Json.str ("pronoun") ∧
    Json.str ("pronoun") ≠ Json.str ("other") ∧
    ¬ ("pronoun" ∈ validPartOfSpeech) := by
  refine ⟨rfl, ?_, by decide⟩
  intro h
  injection h with h2
  exact absurd h2 (by decide)

/-- C6 amended: the import route's `normalizePartOfSpeech` realizes the
claimed mapping — `pronoun` to `other`, `preposition` to `particle`, `verb`
kept, a missing value to `other`, and every input landing in the closed
six-value set — while the POST /api/cards/generate path passes the
generator's string through unchanged (`createCard` only defaults a falsy
value, such as an absent one, to `other`). -/
theorem C6_pos_normalization_amended :
    normalizePartOfSpeech (some ("pronoun")) = "other" ∧
    normalizePartOfSpeech (some ("preposition")) = "particle" ∧
    normalizePartOfSpeech (some ("verb")) = "verb" ∧
    normalizePartOfSpeech none = "other" ∧
    (∀ pos, normalizePartOfSpeech pos ∈ validPartOfSpeech) ∧
    (∀ s : String, persistedPosGenerate (Json.obj [("partOfSpeech", Json.str s)])
      = if s = "" then Json.str ("other") else Json.str s) ∧
    createCardPos none = Json.str ("other") := by
  refine ⟨rfl, rfl, rfl, rfl, ?_, ?_, rfl⟩
  · intro pos
    cases pos with
    | none => simp [normalizePartOfSpeech, validPartOfSpeech]
    | some p =>
      simp only [normalizePartOfSpeech]
      split_ifs with h1 h2 h3 h4 h5 h6 <;>
        simp_all [validPartOfSpeech]
  · intro s
    simp only [persistedPosGenerate, jsGetField, lookupLast, createCardPos,
      jsFalsy]
    split_ifs with h1 h2 h3 <;> simp_all

/-! ### Furigana span bounds -/

/-- C4 counterexample: the pipeline applies no bounds check to furigana
spans.  For a line whose original text is the single character `a` (length
1), an annotator response carrying the span `start 0, end 5` is stored
verbatim by the import route, violating `end ≤ length(contentJa)`. -/
theorem C4_spans_stored_unchecked :
    importFuriganaUpdate
        ("[\x7b\"word\":\"x\",\"reading\":\"y\",\"start\":0,\"end\":5\x7d]")
      = some (Json.arr [Json.obj [("word", Json.str ("x")),
          ("reading", Json.str ("y")), ("start", Json.num 0),
          ("end", Json.num 5)]]) ∧
    spanRange (Json.obj [("word", Json.str ("x")), ("reading", Json.str ("y")),
        ("start", Json.num 0), ("end", Json.num 5)]) = some (0, 5) ∧
    ¬ ((5 : Int) ≤ (("a" : String).length : Int)) := by
  refine ⟨rfl, rfl, by decide⟩

/-- C4 amended: the import route stores furigana without any validation —
exactly the `JSON.parse` of the annotator's string when that string is
truthy and not the empty-array literal, and nothing otherwise — so the span
bounds invariant holds exactly as far as the annotator's response satisfies
it; in particular the mock and fallback paths, whose furigana is always the
empty-array literal, store no spans at all. -/
theorem C4_spans_passthrough_amended :
    (∀ f : String, importFuriganaUpdate f = none ∨
      importFuriganaUpdate f = jsonParse f) ∧
    importFuriganaUpdate ("[]") = none ∧
    importFuriganaUpdate ("") = none ∧
    (∀ f items (ja : String), importFuriganaUpdate f = some (Json.arr items) →
      (∀ item ∈ items, ∀ s e : Int, spanRange item = some (s, e) →
        0 ≤ s ∧ s < e ∧ e ≤ (ja.length : Int)) →
      ∀ item ∈ items, ∀ s e : Int, spanRange item = some (s, e) →
        0 ≤ s ∧ s < e ∧ e ≤ (ja.length : Int)) := by
  refine ⟨?_, rfl, rfl, fun f items ja _ hresp => hresp⟩
  intro f
  unfold importFuriganaUpdate
  split_ifs with h
  · exact Or.inr rfl
  · exact Or.inl rfl

/-- Witness for C4's amended statement: an in-bounds response span is stored
and satisfies the bounds for its line text. -/
theorem C4_spans_passthrough_amended_witness :
    importFuriganaUpdate ("[\x7b\"start\":0,\"end\":1\x7d]")
      = some (Json.arr [Json.obj [("start", Json.num 0), ("end", Json.num 1)]]) ∧
    (∀ item ∈ [Json.obj [("start", Json.num 0), ("end", Json.num 1)]],
      ∀ s e : Int, spanRange item = some (s, e) →
        0 ≤ s ∧ s < e ∧ e ≤ ((("a" : String).length : Int))) := by
  refine ⟨rfl, ?_⟩
  exact C4_spans_passthrough_amended.2.2.2
    ("[\x7b\"start\":0,\"end\":1\x7d]")
    [Json.obj [("start", Json.num 0), ("end", Json.num 1)]]
    ("a") rfl
    (by
      intro item hmem s e hspan
      simp only [List.mem_singleton] at hmem
      subst hmem
      cases hspan
      refine ⟨by decide, by decide, by decide⟩)

end Music
